import Mathlib

/-!
Shallow embedding of the tracing bindings in `src/node_tracing.cc` and the
tracing agent in `src/tracing/agent.cc`, together with proofs about the
claims of the specification.

Pieces of the program that live outside the provided sources (node's
`Utf8Value` conversion from `util.h`, and the category-enabled flag lookup
performed inside the v8 platform tracing code) are modelled from the spec
and marked as such in their doc comments.
-/

namespace NodeTracing

/-- A v8 `Local<Value>` as seen by the binding layer: only the shapes the
bindings inspect are distinguished. `obj` carries the own enumerable
properties in enumeration (insertion) order. -/
inductive JSValue where
  | undefined
  | num (n : Int)
  | str (s : String)
  | date (ms : Int)
  | arr (elems : List JSValue)
  | obj (props : List (String × JSValue))

/-- `Value::IsString`. -/
def JSValue.isString : JSValue → Bool
  | .str _ => true
  | _ => false

/-- `Value::IsUndefined`. -/
def JSValue.isUndefined : JSValue → Bool
  | .undefined => true
  | _ => false

/-- `Value::IsDate`. -/
def JSValue.isDate : JSValue → Bool
  | .date _ => true
  | _ => false

/-- `Value::IsNumber`. -/
def JSValue.isNumber : JSValue → Bool
  | .num _ => true
  | _ => false

/-- `Value::IsArray`. -/
def JSValue.isArray : JSValue → Bool
  | .arr _ => true
  | _ => false

/-- `Value::IsObject`: true for plain objects, arrays and Date objects
(all JSReceivers), false for primitives and undefined. -/
def JSValue.isObject : JSValue → Bool
  | .obj _ => true
  | .arr _ => true
  | .date _ => true
  | _ => false

/-- The numeric payload of a number value (`Int32Value` is applied on top). -/
def JSValue.numVal : JSValue → Int
  | .num n => n
  | _ => 0

/-- `Value::Int32Value()`: ToInt32 wrapping of the (integer-valued) number. -/
def toInt32 (n : Int) : Int := (n + 2 ^ 31) % 2 ^ 32 - 2 ^ 31

/-- Modelled from the spec: node's `Utf8Value` conversion (declared in
`util.h`, which is not among the provided sources). For a string it yields
the string's contents. The spec states that for BeginSpan/EndSpan, "when
omitted, EndSpan/BeginSpan default the id to the event name", which is the
`if (id == nullptr) id = name;` branch in the source; that behavior
requires the conversion of `undefined` to yield a null pointer, modelled
as `none`. Every use in the sources is guarded by an `IsString` (or
`IsString`-or-`IsUndefined`) check, so all other shapes are unreachable
and are also mapped to `none`. -/
def utf8Value : JSValue → Option String
  | .str s => some s
  | _ => none

/-- The list of own enumerable property names of a value, in enumeration
order, as returned by `Object::GetPropertyNames`. The call site performs
an unchecked `Local<Object>::Cast`; for a value that is not a JSReceiver
the cast and subsequent enumeration are undefined behavior, modelled as
`none`. Array property names are the element indices. -/
def propertyNames : JSValue → Option (List String)
  | .obj props => some (props.map Prod.fst)
  | .arr elems => some ((List.range elems.length).map (fun i => toString i))
  | _ => none

/-- Phase of a trace event, matching the `TRACE_EVENT_PHASE_*` /
`TRACE_EVENT_COPY_*` macro used at each emission site. -/
inductive Phase where
  | instant
  | spanBegin
  | spanEnd
  | counter
deriving DecidableEq, Repr

/-- One record handed to the underlying trace-event macros: the phase, the
interned category-group string, the copied name, the id (for async
begin/end events), the counter value (for counter events) and the number
of argument slots passed (`num_args`; the contents of the argument arrays
are never initialized by the source, so only the count is recorded). -/
structure TraceEvent where
  phase : Phase
  categoryGroup : String
  name : String
  id : Option String
  counterValue : Option Int
  numArgs : Nat
deriving DecidableEq, Repr

/-- Result of one call to an emission entry point.
`emitted evts` — the call returned normally and handed exactly `evts` to
the trace macros; `typeError msg` — the call returned with a pending
`ThrowTypeError(msg)` and emitted nothing; `fatal` — the call hit a
`CHECK` failure or undefined behavior (unchecked `Object` cast of a
non-object). -/
inductive EmitOutcome where
  | emitted (events : List TraceEvent)
  | typeError (msg : String)
  | fatal
deriving DecidableEq, Repr

/-- Lookup of a string in the intern pool (the `categoryGroups`
`unordered_set`), returning the index of its entry if present. The pool is
modelled as a list in insertion order; an index plays the role of the
stable `c_str()` pointer, which `unordered_set` never invalidates. -/
def internIdx (pool : List String) (s : String) : Option Nat :=
  match pool with
  | [] => none
  | c :: rest => if c = s then some 0 else (internIdx rest s).map (· + 1)

/-- `categoryGroups.insert(s)`: returns the updated pool and the index
(stable reference) of the entry that was inserted or that blocked the
insertion. -/
def internInsert (pool : List String) (s : String) : List String × Nat :=
  match internIdx pool s with
  | some i => (pool, i)
  | none => (pool ++ [s], pool.length)

/-- Converts a list of values that must all be strings into their string
contents, failing on the first non-string (the loop bodies of
`GetCategoryGroup` and `GetCategoryList`). -/
def asStrings : List JSValue → Option (List String)
  | [] => some []
  | .str s :: rest => (asStrings rest).map (s :: ·)
  | _ :: _ => none

/-- The "resulting joined string" of a category-group input: a single
string stands for itself; an array of strings is joined with `','` in
input order; anything else has no joined form. -/
def joinedGroup : JSValue → Option String
  | .str s => some s
  | .arr elems => (asStrings elems).map (String.intercalate ",")
  | _ => none

/-- `GetCategoryGroup` from `node_tracing.cc`: a string is interned as-is;
an array is joined with `','` (throwing on a non-string element) and the
joined form interned; other shapes throw. Returns the updated pool and
either the interned reference or the thrown message (the source returns
`nullptr` with a pending exception). -/
def getCategoryGroup (pool : List String) (v : JSValue) :
    List String × Except String Nat :=
  match v with
  | .str s =>
    let p := internInsert pool s
    (p.1, .ok p.2)
  | .arr elems =>
    match asStrings elems with
    | some ss =>
      let p := internInsert pool (String.intercalate "," ss)
      (p.1, .ok p.2)
    | none => (pool, .error "Trace event category array must contain strings.")
  | _ => (pool, .error "Trace event category must be a string or string array.")

/-- Splits a character list at every `','`, keeping empty segments; the
split of the empty list is one empty segment. -/
def splitCommaAux : List Char → List (List Char)
  | [] => [[]]
  | c :: rest =>
    if c = ',' then [] :: splitCommaAux rest
    else
      match splitCommaAux rest with
      | t :: ts => (c :: t) :: ts
      | [] => [[c]]

/-- Splitting a string on `','`: empty input yields `[""]`, a trailing
comma yields a trailing empty segment — the same segments a
`std::getline(stream, category, ',')` loop produces. -/
def splitComma (s : String) : List String :=
  (splitCommaAux s.data).map (fun cs => String.mk cs)

/-- Modelled from the spec: the category-enabled flag lookup performed by
`GetCategoryGroupEnabled` through
`INTERNAL_TRACE_EVENT_GET_CATEGORY_INFO_CUSTOM_VARIABLES` (v8 platform
tracing code, not among the provided sources). Per the spec, "A group is
enabled iff at least one of its constituent (comma-split) names is present
in the current EnabledCategorySet". -/
def isGroupEnabled (enabled : List String) (group : String) : Bool :=
  (splitComma group).any (fun c => enabled.contains c)

/-- `GetCategoryList` from `node_tracing.cc`: a string yields a singleton
list, an array of strings yields the list of contents, anything else (or a
non-string element) throws. -/
def getCategoryList (v : JSValue) : Except String (List String) :=
  match v with
  | .str s => .ok [s]
  | .arr elems =>
    match asStrings elems with
    | some ss => .ok ss
    | none => .error "Trace event category array must contain strings."
  | _ => .error "Trace event category must be a string or string array."

/-- `GetTimestamp` from `node_tracing.cc`: a Date yields 0 (the value is
deliberately not used — the `_WITH_TIMESTAMP` macro variants are
unimplemented); a non-Date non-undefined value throws and yields -1; for
`undefined` the C++ function reaches its end without a `return` statement,
so the returned `int64_t` is indeterminate — modelled by the explicit
parameter `uninit`. Returns the value and the pending-exception message,
if any. -/
def getTimestamp (uninit : Int) (v : JSValue) : Int × Option String :=
  if v.isDate then (0, none)
  else if v.isUndefined = false then
    (-1, some "Trace event timestamp must be a Date or undefined.")
  else (uninit, none)

/-- Body of `EmitInstantEvent` after the `CHECK_EQ(args.Length(), 4)`
arity check, on the four call arguments `[name, id, category, args]`.
`GetTimestamp` is invoked on `args[4]`, which is past the CHECK-enforced
argument count and therefore always `undefined` in v8. Note that when the
args value is an object, the source passes `args[1]` (the id slot) to
`TraceWithArgs`, not `args[3]`; `TraceWithArgs` rejects an object with no
properties, fixes `num_args = 1`, and never initializes the argument
arrays it passes on. -/
def emitInstantCore (enabled : List String) (uninit : Int) (pool : List String)
    (name0 id1 category2 args3 : JSValue) : List String × EmitOutcome :=
  match getCategoryGroup pool category2 with
  | (pool1, .error msg) => (pool1, .typeError msg)
  | (pool1, .ok ref) =>
    let group := pool1.getD ref ""
    if isGroupEnabled enabled group = false then (pool1, .emitted [])
    else if name0.isString = false then
      (pool1, .typeError "Trace event name must be a string.")
    else
      let name := (utf8Value name0).getD ""
      let ts := getTimestamp uninit JSValue.undefined
      if ts.1 < 0 then
        (pool1, match ts.2 with
          | some m => .typeError m
          | none => .emitted [])
      else if args3.isUndefined then
        (pool1, .emitted [⟨Phase.instant, group, name, none, none, 0⟩])
      else if args3.isObject then
        match propertyNames id1 with
        | none => (pool1, .fatal)
        | some pnames =>
          if pnames.length = 0 then
            (pool1, .typeError "Trace event args object must contain properties.")
          else (pool1, .emitted [⟨Phase.instant, group, name, none, none, 1⟩])
      else (pool1, .typeError "Trace event args must be an object or undefined.")

/-- `EmitInstantEvent`: `CHECK_EQ(args.Length(), 4)` aborts the process
for any other argument count (`fatal`); otherwise the body runs on the
four arguments. -/
def emitInstantEvent (enabled : List String) (uninit : Int) (pool : List String)
    (argv : List JSValue) : List String × EmitOutcome :=
  match argv with
  | [name0, id1, category2, args3] => emitInstantCore enabled uninit pool name0 id1 category2 args3
  | _ => (pool, .fatal)

/-- Body of `EmitBeginEvent` after the arity check. An async-begin event
is emitted via `TRACE_EVENT_COPY_ASYNC_BEGIN0` whether or not an args
object is supplied (the args variants are an unimplemented TODO), with the
id defaulting to the name when the id converts to null. -/
def emitBeginCore (enabled : List String) (uninit : Int) (pool : List String)
    (name0 id1 category2 args3 : JSValue) : List String × EmitOutcome :=
  match getCategoryGroup pool category2 with
  | (pool1, .error msg) => (pool1, .typeError msg)
  | (pool1, .ok ref) =>
    let group := pool1.getD ref ""
    if isGroupEnabled enabled group = false then (pool1, .emitted [])
    else if name0.isString = false then
      (pool1, .typeError "Trace event name must be a string.")
    else
      let name := (utf8Value name0).getD ""
      if (id1.isString || id1.isUndefined) = false then
        (pool1, .typeError "Trace event id must be a string or undefined.")
      else
        let id := (utf8Value id1).getD name
        let ts := getTimestamp uninit JSValue.undefined
        if ts.1 < 0 then
          (pool1, match ts.2 with
            | some m => .typeError m
            | none => .emitted [])
        else if args3.isUndefined then
          (pool1, .emitted [⟨Phase.spanBegin, group, name, some id, none, 0⟩])
        else if args3.isObject then
          (pool1, .emitted [⟨Phase.spanBegin, group, name, some id, none, 0⟩])
        else (pool1, .typeError "Trace event args must be an object or undefined.")

/-- `EmitBeginEvent` with its arity check. -/
def emitBeginEvent (enabled : List String) (uninit : Int) (pool : List String)
    (argv : List JSValue) : List String × EmitOutcome :=
  match argv with
  | [name0, id1, category2, args3] => emitBeginCore enabled uninit pool name0 id1 category2 args3
  | _ => (pool, .fatal)

/-- Body of `EmitEndEvent` after the arity check; identical to the begin
body except for the phase (`TRACE_EVENT_COPY_ASYNC_END0`). -/
def emitEndCore (enabled : List String) (uninit : Int) (pool : List String)
    (name0 id1 category2 args3 : JSValue) : List String × EmitOutcome :=
  match getCategoryGroup pool category2 with
  | (pool1, .error msg) => (pool1, .typeError msg)
  | (pool1, .ok ref) =>
    let group := pool1.getD ref ""
    if isGroupEnabled enabled group = false then (pool1, .emitted [])
    else if name0.isString = false then
      (pool1, .typeError "Trace event name must be a string.")
    else
      let name := (utf8Value name0).getD ""
      if (id1.isString || id1.isUndefined) = false then
        (pool1, .typeError "Trace event id must be a string or undefined.")
      else
        let id := (utf8Value id1).getD name
        let ts := getTimestamp uninit JSValue.undefined
        if ts.1 < 0 then
          (pool1, match ts.2 with
            | some m => .typeError m
            | none => .emitted [])
        else if args3.isUndefined then
          (pool1, .emitted [⟨Phase.spanEnd, group, name, some id, none, 0⟩])
        else if args3.isObject then
          (pool1, .emitted [⟨Phase.spanEnd, group, name, some id, none, 0⟩])
        else (pool1, .typeError "Trace event args must be an object or undefined.")

/-- `EmitEndEvent` with its arity check. -/
def emitEndEvent (enabled : List String) (uninit : Int) (pool : List String)
    (argv : List JSValue) : List String × EmitOutcome :=
  match argv with
  | [name0, id1, category2, args3] => emitEndCore enabled uninit pool name0 id1 category2 args3
  | _ => (pool, .fatal)

/-- Body of `EmitCountEvent` after the arity check. A numeric value emits
`TRACE_COPY_COUNTER1` with the `Int32Value`; an object value hits the
`TODO: Get args` stub and emits nothing; anything else throws. -/
def emitCountCore (enabled : List String) (uninit : Int) (pool : List String)
    (name0 _id1 category2 args3 : JSValue) : List String × EmitOutcome :=
  match getCategoryGroup pool category2 with
  | (pool1, .error msg) => (pool1, .typeError msg)
  | (pool1, .ok ref) =>
    let group := pool1.getD ref ""
    if isGroupEnabled enabled group = false then (pool1, .emitted [])
    else if name0.isString = false then
      (pool1, .typeError "Trace event name must be a string.")
    else
      let name := (utf8Value name0).getD ""
      let ts := getTimestamp uninit JSValue.undefined
      if ts.1 < 0 then
        (pool1, match ts.2 with
          | some m => .typeError m
          | none => .emitted [])
      else if args3.isNumber then
        (pool1, .emitted [⟨Phase.counter, group, name, none, some (toInt32 args3.numVal), 0⟩])
      else if args3.isObject then (pool1, .emitted [])
      else (pool1, .typeError "Trace count value must be a number or object.")

/-- `EmitCountEvent` with its arity check. -/
def emitCountEvent (enabled : List String) (uninit : Int) (pool : List String)
    (argv : List JSValue) : List String × EmitOutcome :=
  match argv with
  | [name0, id1, category2, args3] => emitCountCore enabled uninit pool name0 id1 category2 args3
  | _ => (pool, .fatal)

/-- State of the tracing `Agent` from `src/tracing/agent.cc`:
`categories` is the `categories_` vector, `started` the `started_` flag,
and `config` the category list of the `TraceConfig` most recently pushed
to the tracing controller by `StartTracing`. -/
structure AgentState where
  categories : List String
  started : Bool
  config : List String
deriving DecidableEq, Repr

/-- `Agent::Start`: builds a `TraceConfig` from `categories_`, pushes it
to the controller, and sets `started_` — unconditionally. -/
def agentStart (s : AgentState) : AgentState :=
  ⟨s.categories, true, s.categories⟩

/-- `Agent::Stop`: stops tracing only if started; otherwise a no-op. -/
def agentStop (s : AgentState) : AgentState :=
  if s.started then ⟨s.categories, false, s.config⟩ else s

/-- `Agent::SetCategories(const std::vector<std::string>&)`: replaces
`categories_` with the given list and, if already started, pushes the
updated config by calling `Start` again. It does not change the started
flag. -/
def agentSetCategories (s : AgentState) (categoryList : List String) : AgentState :=
  let t : AgentState := ⟨categoryList, s.started, s.config⟩
  if t.started then agentStart t else t

/-- `Agent::SetCategories(const char*)`: a null pointer yields the
built-in default `["v8", "node"]`; a non-null string is split on `','` by
the `getline` loop, whose resulting segments (including empty segments and
the single empty segment for the empty input) are exactly `splitComma`.
As with the vector overload, the config is re-pushed only if already
started. -/
def agentSetCategoriesCStr (s : AgentState) (categoryList : Option String) : AgentState :=
  let cats : List String :=
    match categoryList with
    | some cl => splitComma cl
    | none => ["v8", "node"]
  let t : AgentState := ⟨cats, s.started, s.config⟩
  if t.started then agentStart t else t

/-- The `EnableCategory` binding from `node_tracing.cc`: parses the
category list, requires a numeric flags argument, then — for a non-empty
list — calls `Agent::SetCategories` followed by `Agent::Start` if not yet
started; for an empty list it calls `Agent::Stop`. Returns the new agent
state and the thrown message, if any. -/
def enableCategory (s : AgentState) (categoryValue flagsValue : JSValue) :
    AgentState × Option String :=
  match getCategoryList categoryValue with
  | .error msg => (s, some msg)
  | .ok cats =>
    if flagsValue.isNumber = false then
      (s, some "Trace event category enabled flag must be a number.")
    else if cats.length > 0 then
      let s1 := agentSetCategories s cats
      let s2 := if s1.started = false then agentStart s1 else s1
      (s2, none)
    else (agentStop s, none)

/-! Helper lemmas about the intern pool and category-group resolution. -/

theorem internIdx_getElem (pool : List String) (s : String) (i : Nat)
    (h : internIdx pool s = some i) : pool[i]? = some s := by
  induction pool generalizing i with
  | nil => simp [internIdx] at h
  | cons c rest ih =>
    by_cases hc : c = s
    · simp [internIdx, hc] at h
      subst hc
      simp [← h]
    · simp [internIdx, hc] at h
      obtain ⟨k, hk, hik⟩ := h
      subst hik
      simpa using ih k hk

theorem internIdx_append_self (pool : List String) (s : String)
    (h : internIdx pool s = none) : internIdx (pool ++ [s]) s = some pool.length := by
  induction pool with
  | nil => simp [internIdx]
  | cons c rest ih =>
    by_cases hc : c = s
    · simp [internIdx, hc] at h
    · simp only [internIdx, hc, if_false] at h
      have hrest : internIdx rest s = none := by
        cases hr : internIdx rest s with
        | none => rfl
        | some k => simp [hr] at h
      simp [List.cons_append, internIdx, hc, ih hrest, List.length_cons]

theorem internInsert_getElem (pool : List String) (s : String) :
    (internInsert pool s).1[(internInsert pool s).2]? = some s := by
  unfold internInsert
  cases h : internIdx pool s with
  | some i => simpa using internIdx_getElem pool s i h
  | none => simp

theorem internInsert_getD (pool : List String) (s : String) :
    (internInsert pool s).1.getD (internInsert pool s).2 "" = s := by
  rw [List.getD_eq_getElem?_getD, internInsert_getElem]
  rfl

theorem internInsert_idem (pool : List String) (s : String) :
    internInsert (internInsert pool s).1 s = internInsert pool s := by
  cases h : internIdx pool s with
  | some i => simp [internInsert, h]
  | none => simp [internInsert, h, internIdx_append_self pool s h]

theorem getCategoryGroup_of_joined (pool : List String) {v : JSValue} {j : String}
    (h : joinedGroup v = some j) :
    getCategoryGroup pool v = ((internInsert pool j).1, .ok (internInsert pool j).2) := by
  cases v with
  | str s =>
    simp only [joinedGroup, Option.some.injEq] at h
    subst h
    rfl
  | arr elems =>
    simp only [joinedGroup, Option.map_eq_some'] at h
    obtain ⟨ss, hss, hj⟩ := h
    simp [getCategoryGroup, hss, hj]
  | undefined => simp [joinedGroup] at h
  | num n => simp [joinedGroup] at h
  | date ms => simp [joinedGroup] at h
  | obj props => simp [joinedGroup] at h

/-! Helper lemmas about the agent state machine. -/

theorem agentStop_started (s : AgentState) : (agentStop s).started = false := by
  cases h : s.started <;> simp [agentStop, h]

theorem agentStop_categories (s : AgentState) : (agentStop s).categories = s.categories := by
  cases h : s.started <;> simp [agentStop, h]

theorem agentSetCategories_started (t : AgentState) (csl : List String) :
    (agentSetCategories t csl).started = t.started := by
  cases h : t.started <;> simp [agentSetCategories, agentStart, h]

theorem agentSetCategories_categories (t : AgentState) (csl : List String) :
    (agentSetCategories t csl).categories = csl := by
  cases h : t.started <;> simp [agentSetCategories, agentStart, h]

/-- The reachability invariant of the agent: whenever the agent is
started, the config most recently pushed to the tracing controller is the
current category list (`Start` always pushes `categories_`, and both
`SetCategories` overloads re-push it when already started). -/
def startedConfigInv (s : AgentState) : Prop :=
  s.started = true → s.config = s.categories

theorem startedConfigInv_initial : startedConfigInv ⟨[], false, []⟩ := by
  intro h
  exact absurd h (by simp)

theorem startedConfigInv_agentStart (s : AgentState) :
    startedConfigInv (agentStart s) := fun _ => rfl

theorem startedConfigInv_agentStop (s : AgentState) (h : startedConfigInv s) :
    startedConfigInv (agentStop s) := by
  unfold agentStop startedConfigInv
  split
  · intro h'
    exact absurd h' (by simp)
  · exact h

theorem startedConfigInv_agentSetCategories (s : AgentState) (csl : List String) :
    startedConfigInv (agentSetCategories s csl) := by
  cases h : s.started <;> simp [agentSetCategories, h, agentStart, startedConfigInv]

theorem startedConfigInv_agentSetCategoriesCStr (s : AgentState) (cl : Option String) :
    startedConfigInv (agentSetCategoriesCStr s cl) := by
  cases h : s.started <;> simp [agentSetCategoriesCStr, h, agentStart, startedConfigInv]

theorem startedConfigInv_enableCategory (s : AgentState) (cv fv : JSValue)
    (h : startedConfigInv s) : startedConfigInv (enableCategory s cv fv).1 := by
  cases hc : getCategoryList cv with
  | error m => simpa [enableCategory, hc] using h
  | ok cats =>
    cases hf : fv.isNumber with
    | false => simpa [enableCategory, hc, hf] using h
    | true =>
      cases cats with
      | nil => simpa [enableCategory, hc, hf] using startedConfigInv_agentStop s h
      | cons c cs =>
        cases hst : (agentSetCategories s (c :: cs)).started with
        | false =>
          simpa [enableCategory, hc, hf, hst] using
            startedConfigInv_agentStart (agentSetCategories s (c :: cs))
        | true =>
          simpa [enableCategory, hc, hf, hst] using
            startedConfigInv_agentSetCategories s (c :: cs)

/-! Small reduction lemmas used by the claim proofs. -/

theorem isString_undefined : JSValue.undefined.isString = false := rfl

theorem isUndefined_undefined : JSValue.undefined.isUndefined = true := rfl

theorem isString_str (s : String) : (JSValue.str s).isString = true := rfl

theorem utf8Value_undefined : utf8Value JSValue.undefined = none := rfl

theorem utf8Value_str (s : String) : utf8Value (JSValue.str s) = some s := rfl

/-! Claim theorems. -/

/-- Claim C1: for every call to an emission entry point whose category
group resolves to a joined string containing no enabled category, the call
performs the category check first and returns normally with no event
emitted and no exception thrown, regardless of the name, id, args and
timestamp-fill values — so no InvalidArgument is raised for malformed
arguments in that case. The only state change is the interning of the
group string performed by the category check itself. -/
theorem emit_disabled_category_no_event (enabled : List String) (uninit : Int)
    (pool : List String) (a0 a1 cv a3 : JSValue) (j : String)
    (hj : joinedGroup cv = some j)
    (hdis : isGroupEnabled enabled j = false) :
    emitInstantEvent enabled uninit pool [a0, a1, cv, a3] =
      ((internInsert pool j).1, .emitted []) ∧
    emitBeginEvent enabled uninit pool [a0, a1, cv, a3] =
      ((internInsert pool j).1, .emitted []) ∧
    emitEndEvent enabled uninit pool [a0, a1, cv, a3] =
      ((internInsert pool j).1, .emitted []) ∧
    emitCountEvent enabled uninit pool [a0, a1, cv, a3] =
      ((internInsert pool j).1, .emitted []) := by
  have hg := getCategoryGroup_of_joined pool hj
  have hd := internInsert_getElem pool j
  refine ⟨?_, ?_, ?_, ?_⟩ <;>
  · simp only [emitInstantEvent, emitBeginEvent, emitEndEvent, emitCountEvent,
      emitInstantCore, emitBeginCore, emitEndCore, emitCountCore]
    rw [hg]
    simp [hd, hdis]

/-- Claim C1 witness: with only "node" enabled, a call tagged "zzz" whose
name, id and args are all malformed (numbers) emits nothing and throws
nothing. -/
theorem emit_disabled_category_no_event_witness :
    joinedGroup (JSValue.str "zzz") = some "zzz" ∧
    isGroupEnabled ["node"] "zzz" = false ∧
    emitInstantEvent ["node"] 0 [] [.num 1, .num 2, .str "zzz", .num 3] =
      (["zzz"], .emitted []) :=
  ⟨rfl, by decide,
    (emit_disabled_category_no_event ["node"] 0 []
      (.num 1) (.num 2) (.str "zzz") (.num 3) "zzz" rfl (by decide)).1⟩

/-- Claim C2: category-group interning. Two category-group inputs (single
string or array of strings) that resolve to the same joined string resolve
to the same interned reference (the pool index modelling the stable
`c_str()` pointer), the second resolution leaves the pool unchanged, and
the reference denotes exactly the joined string. Taking `v = w` gives
idempotence: repeating the same input yields the reference produced by the
first call. -/
theorem category_group_interning (pool : List String) (v w : JSValue) (j : String)
    (hv : joinedGroup v = some j) (hw : joinedGroup w = some j) :
    ∃ p1 r, getCategoryGroup pool v = (p1, .ok r) ∧
      getCategoryGroup p1 w = (p1, .ok r) ∧ p1[r]? = some j := by
  refine ⟨(internInsert pool j).1, (internInsert pool j).2,
    getCategoryGroup_of_joined pool hv, ?_, internInsert_getElem pool j⟩
  rw [getCategoryGroup_of_joined _ hw, internInsert_idem]

/-- Claim C2 witness: the single string "a,b" and the array
`["a", "b"]` resolve to the same interned reference. -/
theorem category_group_interning_witness :
    joinedGroup (JSValue.str "a,b") = some "a,b" ∧
    joinedGroup (JSValue.arr [.str "a", .str "b"]) = some "a,b" ∧
    ∃ p1 r, getCategoryGroup [] (JSValue.str "a,b") = (p1, .ok r) ∧
      getCategoryGroup p1 (JSValue.arr [.str "a", .str "b"]) = (p1, .ok r) ∧
      p1[r]? = some "a,b" :=
  ⟨rfl, by decide,
    category_group_interning [] (JSValue.str "a,b")
      (JSValue.arr [.str "a", .str "b"]) "a,b" rfl (by decide)⟩

/-- Claim C3 counterexample: `Agent::SetCategories` called directly on a
stopped agent with the non-empty list `["a"]` leaves the agent stopped,
so after this SetCategories call the started state does not match the
resulting non-empty category set — refuting the claim as stated for
`SetCategories`. -/
theorem setCategories_no_autostart_cex :
    (agentSetCategories ⟨[], false, []⟩ ["a"]).categories = ["a"] ∧
    (agentSetCategories ⟨[], false, []⟩ ["a"]).started = false := by decide

/-- Claim C3 (amended): after a valid `EnableCategory` binding call the
started state matches the supplied category list — non-empty list implies
started (starting a stopped agent), empty list implies stopped via the
normal Stop path (which leaves the previous category list in place);
`Agent::SetCategories` alone never changes the started flag. -/
theorem enableCategory_start_matches_list (s : AgentState) (cv fv : JSValue)
    (cats : List String) (hc : getCategoryList cv = .ok cats)
    (hf : fv.isNumber = true) :
    (enableCategory s cv fv).2 = none ∧
    (enableCategory s cv fv).1.started = !cats.isEmpty ∧
    (cats = [] → (enableCategory s cv fv).1 = agentStop s) ∧
    (cats ≠ [] → (enableCategory s cv fv).1.categories = cats) ∧
    (∀ t : AgentState, ∀ csl : List String,
      (agentSetCategories t csl).started = t.started) := by
  cases cats with
  | nil =>
    refine ⟨?_, ?_, ?_, ?_, agentSetCategories_started⟩ <;>
      simp [enableCategory, hc, hf, agentStop_started]
  | cons c cs =>
    have hst : (if (agentSetCategories s (c :: cs)).started = false
        then agentStart (agentSetCategories s (c :: cs))
        else agentSetCategories s (c :: cs)).started = true := by
      cases h : (agentSetCategories s (c :: cs)).started <;> simp [agentStart, h]
    have hcat : (if (agentSetCategories s (c :: cs)).started = false
        then agentStart (agentSetCategories s (c :: cs))
        else agentSetCategories s (c :: cs)).categories = c :: cs := by
      cases h : (agentSetCategories s (c :: cs)).started <;>
        simp [agentStart, h, agentSetCategories_categories]
    refine ⟨?_, ?_, ?_, ?_, agentSetCategories_started⟩ <;>
      simp [enableCategory, hc, hf, hst, hcat]

/-- Claim C3 (amended) witness: an `EnableCategory` call with an empty
category array on a running agent stops it. -/
theorem enableCategory_start_matches_list_witness :
    (enableCategory ⟨["x"], true, ["x"]⟩ (JSValue.arr []) (JSValue.num 1)).1.started =
      false := by
  simpa using
    (enableCategory_start_matches_list ⟨["x"], true, ["x"]⟩
      (JSValue.arr []) (JSValue.num 1) [] rfl rfl).2.1

/-- Claim C4: Start and Stop are idempotent. Under the reachability
invariant (a started agent's pushed config equals its category list),
calling Start while started, or Stop while stopped, leaves the agent state
— categories, started flag and pushed tracing configuration — unchanged;
neither operation can raise an error (both are total on `AgentState`). -/
theorem start_stop_idempotent (s : AgentState)
    (hinv : s.started = true → s.config = s.categories) :
    (s.started = true → agentStart s = s) ∧
    (s.started = false → agentStop s = s) := by
  obtain ⟨c, st, cfg⟩ := s
  constructor
  · intro h
    subst h
    have hcfg : cfg = c := hinv rfl
    subst hcfg
    simp [agentStart]
  · intro h
    subst h
    simp [agentStop]

/-- Claim C4 witness: Start on a started agent and Stop on a stopped
agent each return the state unchanged. -/
theorem start_stop_idempotent_witness :
    agentStart ⟨["v8"], true, ["v8"]⟩ = (⟨["v8"], true, ["v8"]⟩ : AgentState) ∧
    agentStop ⟨["node"], false, []⟩ = (⟨["node"], false, []⟩ : AgentState) :=
  ⟨(start_stop_idempotent ⟨["v8"], true, ["v8"]⟩ (fun _ => rfl)).1 rfl,
   (start_stop_idempotent ⟨["node"], false, []⟩ (fun h => nomatch h)).2 rfl⟩

/-- Claim C5 counterexample: with "node" enabled, an instant event whose
name is the empty string is accepted — the event is emitted and no
exception is thrown — refuting the claim that an empty-string name is
rejected with InvalidArgument. (`ValidateEventName` only checks
`IsString`; the no-error outcome holds for every timestamp fill value,
since name validation precedes the timestamp read.) -/
theorem empty_name_accepted_cex :
    emitInstantEvent ["node"] 0 [] [.str "", .undefined, .str "node", .undefined] =
      (["node"], .emitted [⟨Phase.instant, "node", "", none, none, 0⟩]) := by decide

/-- Claim C5 (amended): for every emission call with an enabled category
group, a name that is not a string fails synchronously with
InvalidArgument ("Trace event name must be a string.") and no event is
emitted; a string name — including the empty string, as the
counterexample shows — passes name validation. -/
theorem nonstring_name_invalid_argument (enabled : List String) (uninit : Int)
    (pool : List String) (a0 a1 cv a3 : JSValue) (j : String)
    (hj : joinedGroup cv = some j)
    (hen : isGroupEnabled enabled j = true)
    (hn : a0.isString = false) :
    emitInstantEvent enabled uninit pool [a0, a1, cv, a3] =
      ((internInsert pool j).1, .typeError "Trace event name must be a string.") ∧
    emitBeginEvent enabled uninit pool [a0, a1, cv, a3] =
      ((internInsert pool j).1, .typeError "Trace event name must be a string.") ∧
    emitEndEvent enabled uninit pool [a0, a1, cv, a3] =
      ((internInsert pool j).1, .typeError "Trace event name must be a string.") ∧
    emitCountEvent enabled uninit pool [a0, a1, cv, a3] =
      ((internInsert pool j).1, .typeError "Trace event name must be a string.") := by
  have hg := getCategoryGroup_of_joined pool hj
  have hd := internInsert_getElem pool j
  refine ⟨?_, ?_, ?_, ?_⟩ <;>
  · simp only [emitInstantEvent, emitBeginEvent, emitEndEvent, emitCountEvent,
      emitInstantCore, emitBeginCore, emitEndCore, emitCountCore]
    rw [hg]
    simp [hd, hen, hn]

/-- Claim C5 (amended) witness: a numeric name with an enabled category is
rejected with the name TypeError. -/
theorem nonstring_name_invalid_argument_witness :
    isGroupEnabled ["node"] "node" = true ∧
    emitInstantEvent ["node"] 0 [] [.num 7, .undefined, .str "node", .undefined] =
      (["node"], .typeError "Trace event name must be a string.") :=
  ⟨by decide,
    (nonstring_name_invalid_argument ["node"] 0 []
      (.num 7) .undefined (.str "node") .undefined "node" rfl (by decide) rfl).1⟩

/-- Claim C6: for EmitSpanBegin and EmitSpanEnd calls with an enabled
category group and the id argument omitted (undefined), the effective id
of the emitted event equals the event's name, so a begin/end pair emitted
with the same name and no explicit id resolves to the same id. (Requires
a non-negative fill for the indeterminate timestamp of the undefined
path, since a negative fill silently suppresses emission.) -/
theorem span_id_defaults_to_name (enabled : List String) (uninit : Int)
    (pool : List String) (n j : String) (cv av : JSValue)
    (hj : joinedGroup cv = some j)
    (hen : isGroupEnabled enabled j = true)
    (hu : 0 ≤ uninit)
    (ha : av.isUndefined = true ∨ av.isObject = true) :
    emitBeginEvent enabled uninit pool [.str n, .undefined, cv, av] =
      ((internInsert pool j).1, .emitted [⟨Phase.spanBegin, j, n, some n, none, 0⟩]) ∧
    emitEndEvent enabled uninit pool [.str n, .undefined, cv, av] =
      ((internInsert pool j).1, .emitted [⟨Phase.spanEnd, j, n, some n, none, 0⟩]) := by
  have hg := getCategoryGroup_of_joined pool hj
  have hd := internInsert_getElem pool j
  have hts : ¬ (getTimestamp uninit JSValue.undefined).1 < 0 := by
    simp only [getTimestamp, JSValue.isDate, JSValue.isUndefined]
    simpa using hu
  constructor <;>
  · simp only [emitBeginEvent, emitEndEvent, emitBeginCore, emitEndCore]
    rw [hg]
    by_cases h1 : av.isUndefined = true
    · simp [hd, hen, hts, isString_str, isString_undefined, isUndefined_undefined,
        utf8Value_str, utf8Value_undefined, h1]
    · have h2 : av.isObject = true := by
        rcases ha with ha | ha
        · exact absurd ha h1
        · exact ha
      have h1' : av.isUndefined = false := by
        cases hh : av.isUndefined
        · rfl
        · exact absurd hh h1
      simp [hd, hen, hts, isString_str, isString_undefined, isUndefined_undefined,
        utf8Value_str, utf8Value_undefined, h1', h2]

/-- Claim C6 witness: a begin/end pair named "S" with no id both resolve
to the effective id "S". -/
theorem span_id_defaults_to_name_witness :
    emitBeginEvent ["node"] 0 [] [.str "S", .undefined, .str "node", .undefined] =
      (["node"], .emitted [⟨Phase.spanBegin, "node", "S", some "S", none, 0⟩]) ∧
    emitEndEvent ["node"] 0 [] [.str "S", .undefined, .str "node", .undefined] =
      (["node"], .emitted [⟨Phase.spanEnd, "node", "S", some "S", none, 0⟩]) :=
  span_id_defaults_to_name ["node"] 0 [] "S" "node" (.str "node") .undefined
    rfl (by decide) (by decide) (Or.inl rfl)

/-- Claim C7 (code bug, evaluation at the failing input): a counter event
with the enabled category "cat" and the three-entry args object
`{a:1, b:2, c:3}` hits the `// TODO: Get args` stub and emits no event at
all — the first two name/value pairs are not retained, contradicting the
claimed (and spec-documented) truncation-to-two behavior. The instant
path is no better: `TraceWithArgs` fixes `num_args = 1` and never
initializes the argument arrays it hands to the trace macro. -/
theorem counter_args_object_dropped :
    emitCountEvent ["cat"] 0 []
      [.str "C", .undefined, .str "cat", .obj [("a", .num 1), ("b", .num 2), ("c", .num 3)]] =
      (["cat"], .emitted []) := by decide

/-- Claim C8 (code bug, evaluation at the failing input): a call that
actually supplies the documented fifth timestamp argument fails the
`CHECK_EQ(args.Length(), 4)` arity check and aborts the process, so a
Date timestamp can never reach `GetTimestamp`; for permitted 4-argument
calls, `args[4]` is read past the checked length (always undefined) and
`GetTimestamp` falls off the end of the function without returning a
value. -/
theorem timestamp_arg_aborts :
    emitInstantEvent ["node"] 0 []
      [.str "E", .undefined, .str "node", .undefined, .date 1700000000000] =
      ([], .fatal) := by decide

/-- Claim C9: `Agent::SetCategories(const char*)` with a null pointer sets
the category list to exactly `["v8", "node"]` (the built-in default)
rather than clearing it, while a non-null string is split on `','` into
the new list. -/
theorem null_categories_default (s : AgentState) :
    (agentSetCategoriesCStr s none).categories = ["v8", "node"] ∧
    ∀ cl : String, (agentSetCategoriesCStr s (some cl)).categories = splitComma cl := by
  constructor
  · cases h : s.started <;> simp [agentSetCategoriesCStr, h, agentStart]
  · intro cl
    cases h : s.started <;> simp [agentSetCategoriesCStr, h, agentStart]

/-- Claim C10 (code bug, evaluation at the failing input): an instant
event with the enabled category "node", a string id and an empty args
object does not produce the "args object must contain properties"
TypeError — the source passes `args[1]` (the id slot) instead of
`args[3]` (the args object) to `TraceWithArgs`, so the empty args object
is never inspected and the unchecked `Local<Object>::Cast` of the
non-object id is undefined behavior. -/
theorem empty_args_object_not_rejected :
    emitInstantEvent ["node"] 0 [] [.str "E", .str "id1", .str "node", .obj []] =
      (["node"], .fatal) := by decide

end NodeTracing
